import Mathlib

/-!
Shallow embedding of the background-video window-selection core of the
`crank` repository (`src/media/processor.py`; the same logic recurs in
`src/plugins/default/processor.py`).

Times and scores are modelled as rationals (`ℚ`); the Python floats
`0.05, 0.1, 0.5, 0.7, 0.8, 1.5` become `1/20, 1/10, 1/2, 7/10, 4/5, 3/2`.

The two external probes are subprocess invocations in the source and are
modelled as oracle parameters:
  * `probe_scene_cuts`  becomes a parameter `cuts : List ℚ` (its returned list);
  * `band_edge_score`   becomes a parameter `scoreFn : ℚ → ℚ → Band → ℚ`
    taking the `start`, `duration` and `band` arguments of the Python call
    (the `input_src` argument is fixed for a whole selection call and dropped).

The randomness used by `select_montage_segments` (`random.uniform(-0.5, 0.5)`
per grid index and `random.shuffle` of the offsets list) is modelled by the
oracle parameters `jitter : ℕ → ℚ` and `offs : ℕ → List ℚ` giving, for each
grid index, the drawn jitter and the shuffled offsets list.
-/

/-- Vertical band argument of `band_edge_score` (`"top"`, `"mid"`, `"bottom"`). -/
inductive Band
  | top
  | mid
  | bottom

/-- Python `min(abs(t - c) for c in (c :: cs))`: fold of `min` over the
absolute distances, seeded with the first element. -/
def minAbsDist (t c : ℚ) (cs : List ℚ) : ℚ :=
  (cs.map fun x => |t - x|).foldl min |t - c|

/-- The inner helper `edge_distance` of `choose_best_window`
(processor.py lines 145-148): `999.0` when no scene cuts are known,
otherwise the minimum absolute distance from `t` to a cut. -/
def edge_distance (cuts : List ℚ) (t : ℚ) : ℚ :=
  match cuts with
  | [] => 999
  | c :: cs => minAbsDist t c cs

/-- The inner helper `is_near_cut` of `select_montage_segments`
(processor.py lines 201-204): `False` when no cuts are known, otherwise
whether the minimum distance to a cut is `< 0.7`. -/
def is_near_cut (cuts : List ℚ) (t : ℚ) : Bool :=
  match cuts with
  | [] => false
  | c :: cs => decide (minAbsDist t c cs < 7/10)

/-- Step size `max(1.0, (duration - target) / max(1, num_candidates - 1))` with
`num_candidates = 8` (processor.py lines 141-142), so the divisor is `7`. -/
def cbwStep (duration target : ℚ) : ℚ :=
  max 1 ((duration - target) / 7)

/-- The `sub_score` computed for a candidate window (processor.py lines
157-161): maximum of the three band scores sampled over the first
`min(10.0, target)` seconds of the window. -/
def cbwScore (scoreFn : ℚ → ℚ → Band → ℚ) (target start : ℚ) : ℚ :=
  max (scoreFn start (min 10 target) Band.top)
    (max (scoreFn start (min 10 target) Band.mid)
      (scoreFn start (min 10 target) Band.bottom))

/-- The running `best` tuple `(start, end, score, objective)` of
`choose_best_window`. -/
structure CbwBest where
  start : ℚ
  stop : ℚ
  score : ℚ
  objective : ℚ

/-- Initial value `best = (-1.0, -1.0, float("inf"), -1.0)` (processor.py
line 143).  The third component is a placeholder that the source never
reads: it is returned only after the whole tuple has been overwritten by
an update (`best[0] < 0` fails only after an update), so any value is
observationally equivalent to the float infinity used there; we use `0`. -/
def cbwInit : CbwBest :=
  ⟨-1, -1, 0, -1⟩

/-- One iteration body of the candidate loop of `choose_best_window`
(processor.py lines 155-165), after the `end_time > duration` break check:
skip the candidate if either boundary is within `0.7` of a scene cut,
otherwise score it and update `best` when the strict comparison
`best[3] < objective` holds. -/
def cbwBody (cuts : List ℚ) (scoreFn : ℚ → ℚ → Band → ℚ) (target step : ℚ)
    (best : CbwBest) (i : ℕ) : CbwBest :=
  let start := (i : ℚ) * step
  let stop := start + target
  if edge_distance cuts start < 7/10 ∨ edge_distance cuts stop < 7/10 then best
  else
    let subScore := cbwScore scoreFn target start
    let borderClearance := min (edge_distance cuts start) (edge_distance cuts stop)
    let objective := borderClearance - subScore * (1/20)
    if best.objective < objective then ⟨start, stop, subScore, objective⟩ else best

/-- The candidate loop `for i in range(num_candidates)` of
`choose_best_window` (processor.py lines 150-165): `i` is the next index,
the second argument the number of remaining indices; the loop breaks at
the first candidate whose end exceeds `duration`. -/
def cbwLoop (cuts : List ℚ) (scoreFn : ℚ → ℚ → Band → ℚ)
    (duration target step : ℚ) : ℕ → ℕ → CbwBest → CbwBest
  | _, 0, best => best
  | i, r + 1, best =>
    if duration < (i : ℚ) * step + target then best
    else cbwLoop cuts scoreFn duration target step (i + 1) r
      (cbwBody cuts scoreFn target step best i)

/-- Embedding of `choose_best_window` (processor.py lines 119-176), with the probes as
oracle parameters.  Degenerate case `duration <= target` returns the whole
video with its max-of-three-bands score; otherwise the 8-candidate search
runs, and if `best[0] < 0` at the end the midpoint fallback is returned. -/
def choose_best_window (cuts : List ℚ) (scoreFn : ℚ → ℚ → Band → ℚ)
    (duration target : ℚ) : ℚ × ℚ × ℚ :=
  if duration ≤ target then
    let score := max (scoreFn 0 duration Band.top)
      (max (scoreFn 0 duration Band.mid) (scoreFn 0 duration Band.bottom))
    (0, min duration target, score)
  else
    let step := cbwStep duration target
    let best := cbwLoop cuts scoreFn duration target step 0 8 cbwInit
    if best.start < 0 then
      let midStart := max 0 ((duration - target) / 2)
      (midStart, midStart + target, cbwScore scoreFn target midStart)
    else (best.start, best.stop, best.score)

/-- The candidate score of `select_montage_segments` (processor.py lines
222-226): maximum band score over the first `min(3.0, end - start)` seconds. -/
def smsScore (scoreFn : ℚ → ℚ → Band → ℚ) (start stop : ℚ) : ℚ :=
  max (scoreFn start (min 3 (stop - start)) Band.top)
    (max (scoreFn start (min 3 (stop - start)) Band.mid)
      (scoreFn start (min 3 (stop - start)) Band.bottom))

/-- The candidate list built at one grid step of `select_montage_segments`
(processor.py lines 212-227): for each offset of the (shuffled) offsets
list, clamp the start into `[0, duration - 0.5]`, cap the end at `duration`,
and keep `(score, start, end)` unless the window is shorter than `1.5`
seconds or either boundary is near a cut. -/
def smsCandidates (cuts : List ℚ) (scoreFn : ℚ → ℚ → Band → ℚ)
    (duration maxSeg baseStart : ℚ) (offsets : List ℚ) : List (ℚ × ℚ × ℚ) :=
  offsets.filterMap fun offset =>
    let start := max 0 (min (duration - 1/2) (baseStart + offset))
    let stop := min duration (start + maxSeg)
    if stop - start < 3/2 then none
    else if is_near_cut cuts start || is_near_cut cuts stop then none
    else some (smsScore scoreFn start stop, start, stop)

/-- Selection `candidates.sort(key=lambda x: x[0]); candidates[0]` (processor.py lines
229-231): the head of a stable sort by score, i.e. the earliest candidate
attaining the minimal score, as a strict-comparison fold; `none` when the
candidate list is empty. -/
def pickMin : List (ℚ × ℚ × ℚ) → Option (ℚ × ℚ × ℚ)
  | [] => none
  | x :: xs => some (xs.foldl (fun b y => if y.1 < b.1 then y else b) x)

/-- Acceptance check `not segments or start >= segments[-1][1] - 0.1`
(processor.py line 232). -/
def smsAccept (segments : List (ℚ × ℚ)) (start : ℚ) : Bool :=
  match segments.getLast? with
  | none => true
  | some last => decide (last.2 - 1/10 ≤ start)

/-- The grid-walk `while` loop of `select_montage_segments` (processor.py
lines 210-235), fuelled: the first `ℕ` argument is recursion fuel (chosen
at the call site large enough that the guard `i * grid_step < duration`
fails before it runs out whenever `max_segment_len > 0`), then the grid
index `i`, the accumulated `picked_time`, and the accepted segments.  The
local `base_start = i * grid_step + random.uniform(-0.5, 0.5)` of the
source is inlined as `i * maxSeg + jitter i`. -/
def smsLoop (cuts : List ℚ) (scoreFn : ℚ → ℚ → Band → ℚ)
    (duration maxSeg totalTarget : ℚ) (jitter : ℕ → ℚ) (offs : ℕ → List ℚ) :
    ℕ → ℕ → ℚ → List (ℚ × ℚ) → List (ℚ × ℚ)
  | 0, _, _, segments => segments
  | fuel + 1, i, picked, segments =>
    if picked < min totalTarget duration ∧ (i : ℚ) * maxSeg < duration then
      match pickMin (smsCandidates cuts scoreFn duration maxSeg
          ((i : ℚ) * maxSeg + jitter i) (offs i)) with
      | none => smsLoop cuts scoreFn duration maxSeg totalTarget jitter offs fuel (i + 1) picked segments
      | some c =>
        if smsAccept segments c.2.1 then
          smsLoop cuts scoreFn duration maxSeg totalTarget jitter offs fuel (i + 1)
            (picked + (c.2.2 - c.2.1)) (segments ++ [(c.2.1, c.2.2)])
        else
          smsLoop cuts scoreFn duration maxSeg totalTarget jitter offs fuel (i + 1) picked segments
    else segments

/-- The accepted segment list produced by the grid walk, with fuel
`⌈duration / max_segment_len⌉ + 1` (enough for the grid guard to exhaust
the timeline whenever `max_segment_len > 0`). -/
def smsSegments (cuts : List ℚ) (scoreFn : ℚ → ℚ → Band → ℚ)
    (duration maxSeg totalTarget : ℚ) (jitter : ℕ → ℚ) (offs : ℕ → List ℚ) :
    List (ℚ × ℚ) :=
  smsLoop cuts scoreFn duration maxSeg totalTarget jitter offs
    ((⌈duration / maxSeg⌉).toNat + 1) 0 0 []

/-- The trimming pass of `select_montage_segments` (processor.py lines
237-249): keep whole segments while the running sum stays `≤ total_target`;
at the first overflowing segment truncate it to the remaining budget if
that remainder is at least `1.0`, else drop it, and stop either way. -/
def trimSegments (totalTarget : ℚ) : List (ℚ × ℚ) → ℚ → List (ℚ × ℚ)
  | [], _ => []
  | (s, e) :: rest, acc =>
    let segLen := e - s
    if acc + segLen ≤ totalTarget then
      (s, e) :: trimSegments totalTarget rest (acc + segLen)
    else
      let remain := max 0 (totalTarget - acc)
      if 1 ≤ remain then [(s, s + remain)] else []

/-- Embedding of `select_montage_segments` (processor.py lines 179-251) with the probes
and random draws as oracle parameters: grid walk, trimming pass, and the
`trimmed or [(0.0, min(duration, max_segment_len))]` fallback. -/
def select_montage_segments (cuts : List ℚ) (scoreFn : ℚ → ℚ → Band → ℚ)
    (duration maxSeg totalTarget : ℚ) (jitter : ℕ → ℚ) (offs : ℕ → List ℚ) :
    List (ℚ × ℚ) :=
  let trimmed := trimSegments totalTarget
    (smsSegments cuts scoreFn duration maxSeg totalTarget jitter offs) 0
  if trimmed = [] then [(0, min duration maxSeg)] else trimmed

/-- Summed duration of a segment list. -/
def sumLen (l : List (ℚ × ℚ)) : ℚ :=
  (l.map fun x => x.2 - x.1).sum

/-- Candidate `i` of the `choose_best_window` search is evaluated (the
`break` at `end_time > duration` has not fired) and passes the 0.7-second
cut-distance filter at both boundaries. -/
abbrev cbwSurvives (cuts : List ℚ) (duration target step : ℚ) (i : ℕ) : Prop :=
  (i : ℚ) * step + target ≤ duration ∧
    7/10 ≤ edge_distance cuts ((i : ℚ) * step) ∧
    7/10 ≤ edge_distance cuts ((i : ℚ) * step + target)

/-- The objective `border_clearance - sub_score * 0.05` of candidate `i`. -/
def cbwObjective (cuts : List ℚ) (scoreFn : ℚ → ℚ → Band → ℚ)
    (target step : ℚ) (i : ℕ) : ℚ :=
  min (edge_distance cuts ((i : ℚ) * step)) (edge_distance cuts ((i : ℚ) * step + target))
    - cbwScore scoreFn target ((i : ℚ) * step) * (1/20)

/-- The `best` tuple as updated by candidate `i`. -/
def cbwCand (cuts : List ℚ) (scoreFn : ℚ → ℚ → Band → ℚ)
    (target step : ℚ) (i : ℕ) : CbwBest :=
  ⟨(i : ℚ) * step, (i : ℚ) * step + target,
    cbwScore scoreFn target ((i : ℚ) * step), cbwObjective cuts scoreFn target step i⟩

/-- Invariant of the candidate loop after the first `n` candidates have
been handled: either no surviving candidate so far beat the `-1.0`
sentinel and `best` is still the initial tuple, or `best` records the
earliest surviving candidate attaining the maximal objective so far. -/
def cbwPost (cuts : List ℚ) (scoreFn : ℚ → ℚ → Band → ℚ)
    (duration target step : ℚ) (n : ℕ) (best : CbwBest) : Prop :=
  (best = cbwInit ∧ ∀ j < n, cbwSurvives cuts duration target step j →
      cbwObjective cuts scoreFn target step j ≤ -1) ∨
  ∃ k, k < n ∧ cbwSurvives cuts duration target step k ∧
    -1 < cbwObjective cuts scoreFn target step k ∧
    best = cbwCand cuts scoreFn target step k ∧
    (∀ j < n, cbwSurvives cuts duration target step j →
      cbwObjective cuts scoreFn target step j ≤ cbwObjective cuts scoreFn target step k) ∧
    (∀ j < k, cbwSurvives cuts duration target step j →
      cbwObjective cuts scoreFn target step j < cbwObjective cuts scoreFn target step k)

/-- Well-formedness of an accepted montage segment: nonnegative start,
length at least `1.5`, end within the source, length at most
`max_segment_len`. -/
def SegWF (duration maxSeg : ℚ) (x : ℚ × ℚ) : Prop :=
  0 ≤ x.1 ∧ 3/2 ≤ x.2 - x.1 ∧ x.2 ≤ duration ∧ x.2 - x.1 ≤ maxSeg

/-- Adjacency relation maintained between consecutive accepted montage
segments: the 0.1-second overlap tolerance, plus non-decreasing starts. -/
def SegRel (a b : ℚ × ℚ) : Prop :=
  a.2 - 1/10 ≤ b.1 ∧ a.1 ≤ b.1

lemma foldl_min_le_init (l : List ℚ) (a : ℚ) : l.foldl min a ≤ a := by
  induction l generalizing a with
  | nil => exact le_refl a
  | cons x xs ih =>
    calc (x :: xs).foldl min a = xs.foldl min (min a x) := rfl
    _ ≤ min a x := ih (min a x)
    _ ≤ a := min_le_left a x

lemma foldl_min_le_mem (l : List ℚ) : ∀ (a x : ℚ), x ∈ l → l.foldl min a ≤ x := by
  induction l with
  | nil => intro a x hx; cases hx
  | cons y ys ih =>
    intro a x hx
    rcases List.mem_cons.mp hx with h | h
    · subst h
      calc (x :: ys).foldl min a = ys.foldl min (min a x) := rfl
      _ ≤ min a x := foldl_min_le_init ys (min a x)
      _ ≤ x := min_le_right a x
    · exact ih (min a y) x h

lemma edge_distance_le_abs (cuts : List ℚ) (t c : ℚ) (hc : c ∈ cuts) :
    edge_distance cuts t ≤ |t - c| := by
  match cuts with
  | [] => cases hc
  | c' :: cs =>
    rcases List.mem_cons.mp hc with h | h
    · subst h
      exact foldl_min_le_init _ _
    · exact foldl_min_le_mem _ _ _ (List.mem_map_of_mem _ h)

lemma cbwPost_extend {cuts : List ℚ} {scoreFn : ℚ → ℚ → Band → ℚ}
    {duration target step : ℚ} {n m : ℕ} {best : CbwBest}
    (h : cbwPost cuts scoreFn duration target step n best) (hnm : n ≤ m)
    (hdead : ∀ j, n ≤ j → j < m → ¬ cbwSurvives cuts duration target step j) :
    cbwPost cuts scoreFn duration target step m best := by
  rcases h with ⟨hb, hall⟩ | ⟨k, hk, hS, hO, hb, hmax, hstrict⟩
  · refine Or.inl ⟨hb, fun j hj hS => ?_⟩
    rcases Nat.lt_or_ge j n with hjn | hjn
    · exact hall j hjn hS
    · exact absurd hS (hdead j hjn hj)
  · refine Or.inr ⟨k, Nat.lt_of_lt_of_le hk hnm, hS, hO, hb, fun j hj hSj => ?_, hstrict⟩
    rcases Nat.lt_or_ge j n with hjn | hjn
    · exact hmax j hjn hSj
    · exact absurd hSj (hdead j hjn hj)

lemma cbwBody_eq (cuts : List ℚ) (scoreFn : ℚ → ℚ → Band → ℚ)
    (target step : ℚ) (best : CbwBest) (i : ℕ) :
    cbwBody cuts scoreFn target step best i =
      if edge_distance cuts ((i : ℚ) * step) < 7/10 ∨
          edge_distance cuts ((i : ℚ) * step + target) < 7/10 then best
      else if best.objective < cbwObjective cuts scoreFn target step i
        then cbwCand cuts scoreFn target step i else best := rfl

lemma cbwBody_post {cuts : List ℚ} {scoreFn : ℚ → ℚ → Band → ℚ}
    {duration target step : ℚ} {i : ℕ} {best : CbwBest}
    (hev : (i : ℚ) * step + target ≤ duration)
    (h : cbwPost cuts scoreFn duration target step i best) :
    cbwPost cuts scoreFn duration target step (i + 1)
      (cbwBody cuts scoreFn target step best i) := by
  rw [cbwBody_eq]
  by_cases hf : edge_distance cuts ((i : ℚ) * step) < 7/10 ∨
      edge_distance cuts ((i : ℚ) * step + target) < 7/10
  · rw [if_pos hf]
    refine cbwPost_extend h (Nat.le_succ i) (fun j hji hji1 hS => ?_)
    have : j = i := by omega
    subst this
    rcases hf with hf | hf
    · exact absurd hS.2.1 (not_le.mpr hf)
    · exact absurd hS.2.2 (not_le.mpr hf)
  · rw [if_neg hf]
    push_neg at hf
    have hSi : cbwSurvives cuts duration target step i := ⟨hev, hf.1, hf.2⟩
    rcases h with ⟨hb, hall⟩ | ⟨k, hk, hSk, hOk, hb, hmax, hstrict⟩
    · subst hb
      by_cases hup : cbwInit.objective < cbwObjective cuts scoreFn target step i
      · rw [if_pos hup]
        have hOi : -1 < cbwObjective cuts scoreFn target step i := hup
        refine Or.inr ⟨i, Nat.lt_succ_self i, hSi, hOi, rfl, fun j hj hSj => ?_,
          fun j hj hSj => lt_of_le_of_lt (hall j hj hSj) hOi⟩
        rcases Nat.lt_succ_iff_lt_or_eq.mp hj with hj | hj
        · exact le_of_lt (lt_of_le_of_lt (hall j hj hSj) hOi)
        · subst hj; exact le_refl _
      · rw [if_neg hup]
        refine Or.inl ⟨rfl, fun j hj hSj => ?_⟩
        rcases Nat.lt_succ_iff_lt_or_eq.mp hj with hj | hj
        · exact hall j hj hSj
        · subst hj; exact not_lt.mp hup
    · subst hb
      have hbo : (cbwCand cuts scoreFn target step k).objective =
          cbwObjective cuts scoreFn target step k := rfl
      by_cases hup : (cbwCand cuts scoreFn target step k).objective <
          cbwObjective cuts scoreFn target step i
      · rw [if_pos hup]
        rw [hbo] at hup
        refine Or.inr ⟨i, Nat.lt_succ_self i, hSi, lt_trans hOk hup, rfl,
          fun j hj hSj => ?_, fun j hj hSj => lt_of_le_of_lt (hmax j hj hSj) hup⟩
        rcases Nat.lt_succ_iff_lt_or_eq.mp hj with hj | hj
        · exact le_of_lt (lt_of_le_of_lt (hmax j hj hSj) hup)
        · subst hj; exact le_refl _
      · rw [if_neg hup]
        rw [hbo] at hup
        refine Or.inr ⟨k, Nat.lt_succ_of_lt hk, hSk, hOk, rfl, fun j hj hSj => ?_, hstrict⟩
        rcases Nat.lt_succ_iff_lt_or_eq.mp hj with hj | hj
        · exact hmax j hj hSj
        · subst hj; exact not_lt.mp hup

lemma cbwLoop_post (cuts : List ℚ) (scoreFn : ℚ → ℚ → Band → ℚ)
    (duration target step : ℚ) (hstep : 0 < step) :
    ∀ (r i : ℕ) (best : CbwBest), cbwPost cuts scoreFn duration target step i best →
      cbwPost cuts scoreFn duration target step (i + r)
        (cbwLoop cuts scoreFn duration target step i r best) := by
  intro r
  induction r with
  | zero => intro i best h; simpa [cbwLoop] using h
  | succ r ih =>
    intro i best h
    rw [cbwLoop]
    by_cases hbr : duration < (i : ℚ) * step + target
    · rw [if_pos hbr]
      refine cbwPost_extend h (Nat.le_add_right i (r + 1)) (fun j hji _ hS => ?_)
      have hmono : (i : ℚ) * step ≤ (j : ℚ) * step :=
        mul_le_mul_of_nonneg_right (Nat.cast_le.mpr hji) (le_of_lt hstep)
      exact absurd hS.1 (not_le.mpr (lt_of_lt_of_le hbr (by linarith)))
    · rw [if_neg hbr]
      have hbody := cbwBody_post (not_lt.mp hbr) h
      have := ih (i + 1) (cbwBody cuts scoreFn target step best i) hbody
      have harith : i + 1 + r = i + (r + 1) := by omega
      rwa [harith] at this

lemma cbwLoop_final (cuts : List ℚ) (scoreFn : ℚ → ℚ → Band → ℚ)
    (duration target : ℚ) :
    cbwPost cuts scoreFn duration target (cbwStep duration target) 8
      (cbwLoop cuts scoreFn duration target (cbwStep duration target) 0 8 cbwInit) := by
  have hstep : 0 < cbwStep duration target :=
    lt_of_lt_of_le zero_lt_one (le_max_left _ _)
  have := cbwLoop_post cuts scoreFn duration target (cbwStep duration target) hstep 8 0 cbwInit
    (Or.inl ⟨rfl, fun j hj => absurd hj (Nat.not_lt_zero j)⟩)
  simpa using this

lemma choose_best_window_general (cuts : List ℚ) (scoreFn : ℚ → ℚ → Band → ℚ)
    (duration target : ℚ) (h : target < duration) :
    choose_best_window cuts scoreFn duration target =
      if (cbwLoop cuts scoreFn duration target (cbwStep duration target) 0 8 cbwInit).start < 0 then
        (max 0 ((duration - target) / 2), max 0 ((duration - target) / 2) + target,
          cbwScore scoreFn target (max 0 ((duration - target) / 2)))
      else
        ((cbwLoop cuts scoreFn duration target (cbwStep duration target) 0 8 cbwInit).start,
         (cbwLoop cuts scoreFn duration target (cbwStep duration target) 0 8 cbwInit).stop,
         (cbwLoop cuts scoreFn duration target (cbwStep duration target) 0 8 cbwInit).score) := by
  simp only [choose_best_window, if_neg (not_le.mpr h)]

lemma cbwArgmax (cuts : List ℚ) (scoreFn : ℚ → ℚ → Band → ℚ)
    (duration target : ℚ) (h : target < duration)
    (hex : ∃ i, i < 8 ∧ cbwSurvives cuts duration target (cbwStep duration target) i ∧
      -1 < cbwObjective cuts scoreFn target (cbwStep duration target) i) :
    ∃ k, k < 8 ∧ cbwSurvives cuts duration target (cbwStep duration target) k ∧
      -1 < cbwObjective cuts scoreFn target (cbwStep duration target) k ∧
      (∀ j, j < 8 → cbwSurvives cuts duration target (cbwStep duration target) j →
        cbwObjective cuts scoreFn target (cbwStep duration target) j ≤
          cbwObjective cuts scoreFn target (cbwStep duration target) k) ∧
      (∀ j, j < k → cbwSurvives cuts duration target (cbwStep duration target) j →
        cbwObjective cuts scoreFn target (cbwStep duration target) j <
          cbwObjective cuts scoreFn target (cbwStep duration target) k) ∧
      choose_best_window cuts scoreFn duration target =
        ((k : ℚ) * cbwStep duration target,
         (k : ℚ) * cbwStep duration target + target,
         cbwScore scoreFn target ((k : ℚ) * cbwStep duration target)) := by
  rcases cbwLoop_final cuts scoreFn duration target with ⟨_, hall⟩ |
    ⟨k, hk, hS, hO, hb, hmax, hstrict⟩
  · rcases hex with ⟨i, hi, hSi, hOi⟩
    exact absurd (hall i hi hSi) (not_le.mpr hOi)
  · have hstep : 0 < cbwStep duration target :=
      lt_of_lt_of_le zero_lt_one (le_max_left _ _)
    have hstart : (cbwLoop cuts scoreFn duration target (cbwStep duration target) 0 8
        cbwInit).start = (k : ℚ) * cbwStep duration target := by rw [hb]; rfl
    have hnonneg : (0 : ℚ) ≤ (k : ℚ) * cbwStep duration target :=
      mul_nonneg (Nat.cast_nonneg k) (le_of_lt hstep)
    refine ⟨k, hk, hS, hO, hmax, hstrict, ?_⟩
    rw [choose_best_window_general cuts scoreFn duration target h,
      if_neg (by rw [hstart]; exact not_lt.mpr hnonneg), hb]
    rfl

/-- C1 (corrected): in the general case `duration > target`, among the
candidates that are evaluated (the break at `end > duration` has not
fired) and survive the 0.7-second cut-distance filter, `choose_best_window`
returns the earliest candidate attaining the maximal objective
`border_clearance - 0.05 * text_score` — provided that maximal objective
exceeds the `-1.0` initial sentinel of the `best` tuple (hypothesis `hex`);

otherwise the midpoint fallback is returned instead, which is the
correction this claim needs. -/
theorem C1_argmax_objective (cuts : List ℚ) (scoreFn : ℚ → ℚ → Band → ℚ)
    (duration target : ℚ) (h : target < duration)
    (hex : ∃ i, i < 8 ∧ cbwSurvives cuts duration target (cbwStep duration target) i ∧
      -1 < cbwObjective cuts scoreFn target (cbwStep duration target) i) :
    ∃ k, k < 8 ∧ cbwSurvives cuts duration target (cbwStep duration target) k ∧
      (∀ j, j < 8 → cbwSurvives cuts duration target (cbwStep duration target) j →
        cbwObjective cuts scoreFn target (cbwStep duration target) j ≤
          cbwObjective cuts scoreFn target (cbwStep duration target) k) ∧
      (∀ j, j < k → cbwSurvives cuts duration target (cbwStep duration target) j →
        cbwObjective cuts scoreFn target (cbwStep duration target) j <
          cbwObjective cuts scoreFn target (cbwStep duration target) k) ∧
      choose_best_window cuts scoreFn duration target =
        ((k : ℚ) * cbwStep duration target,
         (k : ℚ) * cbwStep duration target + target,
         cbwScore scoreFn target ((k : ℚ) * cbwStep duration target)) := by
  rcases cbwArgmax cuts scoreFn duration target h hex with
    ⟨k, hk, hS, _, hmax, hstrict, heq⟩
  exact ⟨k, hk, hS, hmax, hstrict, heq⟩

/-- C2 (corrected): in the general case `duration > target`, the midpoint
fallback branch is taken (`best.start < 0` after the loop) if and only if
no evaluated candidate both survives the 0.7-second cut-distance filter
and has objective exceeding the `-1.0` sentinel; and when that branch is
taken the returned window is the midpoint window.  The claimed "if and
only if no candidate survives the filter" is corrected: a surviving
candidate whose text score is large enough to drive the objective to
`-1.0` or below also leads to the fallback, so a high text score alone
CAN exclude a candidate. -/
theorem C2_fallback_iff (cuts : List ℚ) (scoreFn : ℚ → ℚ → Band → ℚ)
    (duration target : ℚ) (h : target < duration) :
    ((cbwLoop cuts scoreFn duration target (cbwStep duration target) 0 8 cbwInit).start < 0 ↔
      ¬ ∃ i, i < 8 ∧ cbwSurvives cuts duration target (cbwStep duration target) i ∧
        -1 < cbwObjective cuts scoreFn target (cbwStep duration target) i) ∧
    ((cbwLoop cuts scoreFn duration target (cbwStep duration target) 0 8 cbwInit).start < 0 →
      choose_best_window cuts scoreFn duration target =
        (max 0 ((duration - target) / 2), max 0 ((duration - target) / 2) + target,
          cbwScore scoreFn target (max 0 ((duration - target) / 2)))) := by
  have hstep : 0 < cbwStep duration target :=
    lt_of_lt_of_le zero_lt_one (le_max_left _ _)
  constructor
  · constructor
    · intro hneg
      rcases cbwLoop_final cuts scoreFn duration target with ⟨_, hall⟩ |
        ⟨k, hk, _, _, hb, _, _⟩
      · rintro ⟨i, hi, hSi, hOi⟩
        exact absurd (hall i hi hSi) (not_le.mpr hOi)
      · have : (cbwLoop cuts scoreFn duration target (cbwStep duration target) 0 8
            cbwInit).start = (k : ℚ) * cbwStep duration target := by rw [hb]; rfl
        rw [this] at hneg
        exact absurd hneg
          (not_lt.mpr (mul_nonneg (Nat.cast_nonneg k) (le_of_lt hstep)))
    · intro hnone
      rcases cbwLoop_final cuts scoreFn duration target with ⟨hb, _⟩ |
        ⟨k, hk, hS, hO, _, _, _⟩
      · rw [hb]; norm_num [cbwInit]
      · exact absurd ⟨k, hk, hS, hO⟩ hnone
  · intro hneg
    rw [choose_best_window_general cuts scoreFn duration target h, if_pos hneg]

/-- C3 (corrected): in the general case `duration > target`, the window
returned by `choose_best_window` has both boundaries at least 0.7 seconds
away from every detected scene cut PROVIDED the candidate-search branch is
the one that returns (some surviving candidate beats the `-1.0` sentinel,
hypothesis `hex`); the midpoint fallback window is scored but never
filtered and can violate the clearance, which is the correction this claim
needs.  (With an empty cut set the conclusion is vacuous, matching the
claimed "or the detected cut set is empty".) -/
theorem C3_boundary_clearance (cuts : List ℚ) (scoreFn : ℚ → ℚ → Band → ℚ)
    (duration target : ℚ) (h : target < duration)
    (hex : ∃ i, i < 8 ∧ cbwSurvives cuts duration target (cbwStep duration target) i ∧
      -1 < cbwObjective cuts scoreFn target (cbwStep duration target) i) :
    ∀ c ∈ cuts,
      7/10 ≤ |(choose_best_window cuts scoreFn duration target).1 - c| ∧
      7/10 ≤ |(choose_best_window cuts scoreFn duration target).2.1 - c| := by
  rcases cbwArgmax cuts scoreFn duration target h hex with
    ⟨k, _, hS, _, _, _, heq⟩
  intro c hc
  rw [heq]
  constructor
  · exact le_trans hS.2.1 (edge_distance_le_abs cuts _ c hc)
  · exact le_trans hS.2.2 (edge_distance_le_abs cuts _ c hc)

lemma cbwObjective_empty (scoreFn : ℚ → ℚ → Band → ℚ) (target step : ℚ) (i : ℕ) :
    cbwObjective [] scoreFn target step i =
      999 - cbwScore scoreFn target ((i : ℚ) * step) * (1/20) := by
  simp [cbwObjective, edge_distance]

/-- C10 (confirmed): with an empty detected cut set and `duration > target`,
`edge_distance` is constantly the `999.0` sentinel, so no candidate is
rejected by the cut-distance filter (a candidate "survives" exactly when it
is evaluated, i.e. its end does not exceed `duration`), and provided every
evaluated candidate text score is below `20000` the returned window is
the evaluated candidate with the minimum text score, the earliest such
candidate on ties. -/
theorem C10_empty_cuts_min_score (scoreFn : ℚ → ℚ → Band → ℚ)
    (duration target : ℚ) (h : target < duration)
    (hsc : ∀ i : ℕ, i < 8 → (i : ℚ) * cbwStep duration target + target ≤ duration →
      cbwScore scoreFn target ((i : ℚ) * cbwStep duration target) < 20000) :
    (∀ t, edge_distance [] t = 999) ∧
    (∀ i, cbwSurvives [] duration target (cbwStep duration target) i ↔
      (i : ℚ) * cbwStep duration target + target ≤ duration) ∧
    ∃ k : ℕ, k < 8 ∧ (k : ℚ) * cbwStep duration target + target ≤ duration ∧
      (∀ j : ℕ, j < 8 → (j : ℚ) * cbwStep duration target + target ≤ duration →
        cbwScore scoreFn target ((k : ℚ) * cbwStep duration target) ≤
          cbwScore scoreFn target ((j : ℚ) * cbwStep duration target)) ∧
      (∀ j : ℕ, j < k → (j : ℚ) * cbwStep duration target + target ≤ duration →
        cbwScore scoreFn target ((k : ℚ) * cbwStep duration target) <
          cbwScore scoreFn target ((j : ℚ) * cbwStep duration target)) ∧
      choose_best_window [] scoreFn duration target =
        ((k : ℚ) * cbwStep duration target, (k : ℚ) * cbwStep duration target + target,
          cbwScore scoreFn target ((k : ℚ) * cbwStep duration target)) := by
  have hsent : ∀ t, edge_distance ([] : List ℚ) t = 999 := fun _ => rfl
  have hsurv : ∀ i, cbwSurvives [] duration target (cbwStep duration target) i ↔
      (i : ℚ) * cbwStep duration target + target ≤ duration := by
    intro i
    constructor
    · exact fun hS => hS.1
    · intro hev
      refine ⟨hev, ?_, ?_⟩ <;> · rw [hsent]; norm_num
  refine ⟨hsent, hsurv, ?_⟩
  have hex : ∃ i, i < 8 ∧ cbwSurvives [] duration target (cbwStep duration target) i ∧
      -1 < cbwObjective [] scoreFn target (cbwStep duration target) i := by
    refine ⟨0, by norm_num, (hsurv 0).mpr ?_, ?_⟩
    · push_cast
      linarith
    · rw [cbwObjective_empty]
      have h0 : ((0 : ℕ) : ℚ) * cbwStep duration target + target ≤ duration := by
        push_cast
        linarith
      have hs := hsc 0 (by norm_num) h0
      norm_num at hs ⊢
      linarith
  rcases cbwArgmax [] scoreFn duration target h hex with
    ⟨k, hk, hS, _, hmax, hstrict, heq⟩
  refine ⟨k, hk, hS.1, ?_, ?_, heq⟩
  · intro j hj hev
    have := hmax j hj ((hsurv j).mpr hev)
    rw [cbwObjective_empty, cbwObjective_empty] at this
    linarith
  · intro j hj hev
    have := hstrict j hj ((hsurv j).mpr hev)
    rw [cbwObjective_empty, cbwObjective_empty] at this
    linarith

lemma sumLen_nil : sumLen [] = 0 := rfl

lemma sumLen_cons (p : ℚ × ℚ) (l : List (ℚ × ℚ)) :
    sumLen (p :: l) = (p.2 - p.1) + sumLen l := by
  simp [sumLen]

lemma foldl_pick_mem (xs : List (ℚ × ℚ × ℚ)) :
    ∀ x, xs.foldl (fun b y => if y.1 < b.1 then y else b) x ∈ x :: xs := by
  induction xs with
  | nil => intro x; exact List.mem_singleton.mpr rfl
  | cons y ys ih =>
    intro x
    rw [List.foldl_cons]
    rcases List.mem_cons.mp (ih (if y.1 < x.1 then y else x)) with h | h
    · rw [h]
      by_cases hy : y.1 < x.1
      · rw [if_pos hy]
        exact List.mem_cons_of_mem x (List.mem_cons_self y ys)
      · rw [if_neg hy]
        exact List.mem_cons_self x _
    · exact List.mem_cons_of_mem x (List.mem_cons_of_mem y h)

lemma pickMin_mem {l : List (ℚ × ℚ × ℚ)} {c : ℚ × ℚ × ℚ}
    (h : pickMin l = some c) : c ∈ l := by
  match l with
  | [] => cases h
  | x :: xs =>
    have hc : c = xs.foldl (fun b y => if y.1 < b.1 then y else b) x :=
      (Option.some.inj h).symm
    rw [hc]
    exact foldl_pick_mem xs x

lemma smsCandidates_mem {cuts : List ℚ} {scoreFn : ℚ → ℚ → Band → ℚ}
    {duration maxSeg baseStart : ℚ} {offsets : List ℚ} {c : ℚ × ℚ × ℚ}
    (hc : c ∈ smsCandidates cuts scoreFn duration maxSeg baseStart offsets) :
    0 ≤ c.2.1 ∧ 3/2 ≤ c.2.2 - c.2.1 ∧ c.2.2 ≤ duration ∧ c.2.2 - c.2.1 ≤ maxSeg := by
  unfold smsCandidates at hc
  rcases List.mem_filterMap.mp hc with ⟨offset, _, heq⟩
  simp only at heq
  split_ifs at heq with h1 h2
  have hc' : c = (smsScore scoreFn (max 0 (min (duration - 1/2) (baseStart + offset)))
      (min duration (max 0 (min (duration - 1/2) (baseStart + offset)) + maxSeg)),
      max 0 (min (duration - 1/2) (baseStart + offset)),
      min duration (max 0 (min (duration - 1/2) (baseStart + offset)) + maxSeg)) :=
    (Option.some.inj heq).symm
  rw [hc']
  push_neg at h1
  refine ⟨le_max_left _ _, h1, min_le_left _ _, ?_⟩
  have := min_le_right duration (max 0 (min (duration - 1/2) (baseStart + offset)) + maxSeg)
  linarith

lemma smsAccept_spec {segs : List (ℚ × ℚ)} {start : ℚ} (h : smsAccept segs start = true) :
    ∀ last ∈ segs.getLast?, last.2 - 1/10 ≤ start := by
  intro last hlast
  have hsome : segs.getLast? = some last := hlast
  unfold smsAccept at h
  rw [hsome] at h
  exact of_decide_eq_true h

lemma segs_append_inv {duration maxSeg : ℚ} {segs : List (ℚ × ℚ)} {s e : ℚ}
    (hwf : ∀ x ∈ segs, SegWF duration maxSeg x) (hch : List.Chain' SegRel segs)
    (hs : SegWF duration maxSeg (s, e)) (hacc : smsAccept segs s = true) :
    (∀ x ∈ segs ++ [(s, e)], SegWF duration maxSeg x) ∧
      List.Chain' SegRel (segs ++ [(s, e)]) := by
  constructor
  · intro x hx
    rcases List.mem_append.mp hx with hx | hx
    · exact hwf x hx
    · rw [List.mem_singleton.mp hx]
      exact hs
  · apply List.chain'_append.mpr
    refine ⟨hch, List.chain'_singleton _, ?_⟩
    intro x hx y hy
    have hy' : (s, e) = y := by simpa using hy
    subst hy'
    have h1 : x.2 - 1/10 ≤ s := smsAccept_spec hacc x hx
    have hxmem : x ∈ segs := List.mem_of_getLast?_eq_some hx
    have h2 : 3/2 ≤ x.2 - x.1 := (hwf x hxmem).2.1
    exact ⟨h1, by linarith⟩

lemma smsLoop_inv (cuts : List ℚ) (scoreFn : ℚ → ℚ → Band → ℚ)
    (duration maxSeg totalTarget : ℚ) (jitter : ℕ → ℚ) (offs : ℕ → List ℚ) :
    ∀ (fuel i : ℕ) (picked : ℚ) (segs : List (ℚ × ℚ)),
      (∀ x ∈ segs, SegWF duration maxSeg x) → List.Chain' SegRel segs →
      (∀ x ∈ smsLoop cuts scoreFn duration maxSeg totalTarget jitter offs fuel i picked segs,
        SegWF duration maxSeg x) ∧
      List.Chain' SegRel
        (smsLoop cuts scoreFn duration maxSeg totalTarget jitter offs fuel i picked segs) := by
  intro fuel
  induction fuel with
  | zero =>
    intro i picked segs h1 h2
    exact ⟨h1, h2⟩
  | succ fuel ih =>
    intro i picked segs h1 h2
    rw [smsLoop]
    split
    · split
      · exact ih (i + 1) picked segs h1 h2
      · rename_i c hpick
        split
        · rename_i hacc
          have hcm := smsCandidates_mem (pickMin_mem hpick)
          have hpair : SegWF duration maxSeg (c.2.1, c.2.2) := hcm
          have hnext := segs_append_inv h1 h2 hpair hacc
          exact ih (i + 1) (picked + (c.2.2 - c.2.1)) (segs ++ [(c.2.1, c.2.2)])
            hnext.1 hnext.2
        · exact ih (i + 1) picked segs h1 h2
    · exact ⟨h1, h2⟩

lemma smsSegments_inv (cuts : List ℚ) (scoreFn : ℚ → ℚ → Band → ℚ)
    (duration maxSeg totalTarget : ℚ) (jitter : ℕ → ℚ) (offs : ℕ → List ℚ) :
    (∀ x ∈ smsSegments cuts scoreFn duration maxSeg totalTarget jitter offs,
      SegWF duration maxSeg x) ∧
    List.Chain' SegRel (smsSegments cuts scoreFn duration maxSeg totalTarget jitter offs) := by
  exact smsLoop_inv cuts scoreFn duration maxSeg totalTarget jitter offs _ 0 0 []
    (fun x hx => absurd hx (List.not_mem_nil x)) List.chain'_nil

lemma trimSegments_shape (totalTarget : ℚ) :
    ∀ (xs : List (ℚ × ℚ)) (acc : ℚ),
      (∃ n, trimSegments totalTarget xs acc = xs.take n ∧
        (n = 0 ∨ acc + sumLen (xs.take n) ≤ totalTarget)) ∨
      (∃ n s e rest, xs.drop n = (s, e) :: rest ∧
        trimSegments totalTarget xs acc =
          xs.take n ++ [(s, s + (totalTarget - (acc + sumLen (xs.take n))))] ∧
        1 ≤ totalTarget - (acc + sumLen (xs.take n)) ∧
        totalTarget < acc + sumLen (xs.take n) + (e - s)) := by
  intro xs
  induction xs with
  | nil =>
    intro acc
    exact Or.inl ⟨0, rfl, Or.inl rfl⟩
  | cons p rest ih =>
    intro acc
    obtain ⟨s, e⟩ := p
    rw [trimSegments]
    by_cases hkeep : acc + (e - s) ≤ totalTarget
    · rw [if_pos hkeep]
      rcases ih (acc + (e - s)) with ⟨n, heq, hsum⟩ | ⟨n, s', e', rest', hdrop, heq, h1, h2⟩
      · refine Or.inl ⟨n + 1, ?_, ?_⟩
        · rw [List.take_succ_cons, heq]
        · right
          rcases hsum with h0 | hsum
          · subst h0
            simpa [sumLen_cons, sumLen_nil] using hkeep
          · rw [List.take_succ_cons, sumLen_cons]
            simp only at hsum ⊢
            linarith
      · refine Or.inr ⟨n + 1, s', e', rest', ?_, ?_, ?_, ?_⟩
        · rw [List.drop_succ_cons]
          exact hdrop
        · rw [List.take_succ_cons, sumLen_cons, heq]
          simp only [List.cons_append]
          congr 2
          ring_nf
        · rw [List.take_succ_cons, sumLen_cons]
          simp only
          linarith
        · rw [List.take_succ_cons, sumLen_cons]
          simp only
          linarith
    · rw [if_neg hkeep]
      by_cases hrem : 1 ≤ max 0 (totalTarget - acc)
      · rw [if_pos hrem]
        have hnn : 0 ≤ totalTarget - acc := by
          by_contra hneg
          push_neg at hneg
          rw [max_eq_left (le_of_lt hneg)] at hrem
          linarith
        have hmax : max 0 (totalTarget - acc) = totalTarget - acc := max_eq_right hnn
        rw [hmax]
        refine Or.inr ⟨0, s, e, rest, rfl, ?_, ?_, ?_⟩
        · rw [List.take_zero, sumLen_nil]
          norm_num
        · rw [List.take_zero, sumLen_nil]
          rw [hmax] at hrem
          linarith
        · rw [List.take_zero, sumLen_nil]
          push_neg at hkeep
          linarith
      · rw [if_neg hrem]
        exact Or.inl ⟨0, rfl, Or.inl rfl⟩

lemma chain_take {R : ℚ × ℚ → ℚ × ℚ → Prop} {l : List (ℚ × ℚ)}
    (h : List.Chain' R l) (n : ℕ) : List.Chain' R (l.take n) := by
  have hl := List.take_append_drop n l
  rw [← hl] at h
  exact (List.chain'_append.mp h).1

lemma chain_trunc {l : List (ℚ × ℚ)} (h : List.Chain' SegRel l) {n : ℕ} {s e r : ℚ}
    {rest : List (ℚ × ℚ)} (hdrop : l.drop n = (s, e) :: rest) :
    List.Chain' SegRel (l.take n ++ [(s, s + r)]) := by
  have hl := List.take_append_drop n l
  rw [← hl, hdrop] at h
  have hsplit := List.chain'_append.mp h
  apply List.chain'_append.mpr
  refine ⟨hsplit.1, List.chain'_singleton _, ?_⟩
  intro x hx y hy
  have hy' : (s, s + r) = y := by simpa using hy
  subst hy'
  have hrel : SegRel x (s, e) := hsplit.2.2 x hx (s, e) rfl
  exact ⟨hrel.1, hrel.2⟩

lemma choose_best_window_wf (cuts : List ℚ) (scoreFn : ℚ → ℚ → Band → ℚ)
    (duration target : ℚ) (hd : 0 < duration) (ht : 0 < target) :
    0 ≤ (choose_best_window cuts scoreFn duration target).1 ∧
    (choose_best_window cuts scoreFn duration target).1 <
      (choose_best_window cuts scoreFn duration target).2.1 ∧
    (choose_best_window cuts scoreFn duration target).2.1 ≤ duration ∧
    (choose_best_window cuts scoreFn duration target).2.1 -
      (choose_best_window cuts scoreFn duration target).1 ≤ target := by
  by_cases hdt : duration ≤ target
  · have heq : choose_best_window cuts scoreFn duration target =
        (0, min duration target, max (scoreFn 0 duration Band.top)
          (max (scoreFn 0 duration Band.mid) (scoreFn 0 duration Band.bottom))) := by
      simp only [choose_best_window, if_pos hdt]
    rw [heq]
    refine ⟨le_refl 0, ?_, ?_, ?_⟩
    · simpa using lt_min hd ht
    · simp
    · simp
  · have h := not_le.mp hdt
    rw [choose_best_window_general cuts scoreFn duration target h]
    rcases cbwLoop_final cuts scoreFn duration target with ⟨hb, _⟩ |
      ⟨k, _, hS, _, hb, _, _⟩
    · rw [hb]
      rw [if_pos (by norm_num [cbwInit])]
      have hmid : max 0 ((duration - target) / 2) = (duration - target) / 2 :=
        max_eq_right (by linarith)
      refine ⟨le_max_left _ _, ?_, ?_, ?_⟩
      · simpa using ht
      · rw [hmid]
        simp only
        linarith
      · simp
    · rw [hb]
      have hstep : 0 < cbwStep duration target :=
        lt_of_lt_of_le zero_lt_one (le_max_left _ _)
      have hnn : (0 : ℚ) ≤ (k : ℚ) * cbwStep duration target :=
        mul_nonneg (Nat.cast_nonneg k) (le_of_lt hstep)
      rw [if_neg (by simpa [cbwCand] using not_lt.mpr hnn)]
      refine ⟨hnn, ?_, ?_, ?_⟩
      · simpa [cbwCand] using ht
      · simpa [cbwCand] using hS.1
      · simp [cbwCand]

lemma montage_wf (cuts : List ℚ) (scoreFn : ℚ → ℚ → Band → ℚ)
    (duration maxSeg totalTarget : ℚ) (jitter : ℕ → ℚ) (offs : ℕ → List ℚ)
    (hd : 0 < duration) (hm : 0 < maxSeg) :
    ∀ x ∈ select_montage_segments cuts scoreFn duration maxSeg totalTarget jitter offs,
      0 ≤ x.1 ∧ x.1 < x.2 ∧ x.2 ≤ duration ∧ x.2 - x.1 ≤ maxSeg := by
  have hinv := smsSegments_inv cuts scoreFn duration maxSeg totalTarget jitter offs
  intro x hx
  simp only [select_montage_segments] at hx
  split at hx
  · rw [List.mem_singleton.mp hx]
    refine ⟨le_refl 0, ?_, ?_, ?_⟩
    · simpa using lt_min hd hm
    · simp
    · simp
  · rcases trimSegments_shape totalTarget
        (smsSegments cuts scoreFn duration maxSeg totalTarget jitter offs) 0 with
      ⟨n, heq, _⟩ | ⟨n, s, e, rest, hdrop, heq, h1, h2⟩
    · rw [heq] at hx
      have hmem := List.mem_of_mem_take hx
      have hwf := hinv.1 x hmem
      exact ⟨hwf.1, by have := hwf.2.1; linarith, hwf.2.2.1, hwf.2.2.2⟩
    · rw [heq] at hx
      rcases List.mem_append.mp hx with hx | hx
      · have hmem := List.mem_of_mem_take hx
        have hwf := hinv.1 x hmem
        exact ⟨hwf.1, by have := hwf.2.1; linarith, hwf.2.2.1, hwf.2.2.2⟩
      · rw [List.mem_singleton.mp hx]
        have hmem : (s, e) ∈ smsSegments cuts scoreFn duration maxSeg totalTarget jitter offs := by
          have : (s, e) ∈ (smsSegments cuts scoreFn duration maxSeg totalTarget
              jitter offs).drop n := by
            rw [hdrop]
            exact List.mem_cons_self _ _
          exact List.mem_of_mem_drop this
        have hwf := hinv.1 (s, e) hmem
        have hse : (3 : ℚ)/2 ≤ e - s := hwf.2.1
        have hed : e ≤ duration := hwf.2.2.1
        have hem : e - s ≤ maxSeg := hwf.2.2.2
        simp only at hwf ⊢
        refine ⟨hwf.1, by linarith, by linarith, by linarith⟩

lemma sumLen_append (l1 l2 : List (ℚ × ℚ)) :
    sumLen (l1 ++ l2) = sumLen l1 + sumLen l2 := by
  simp [sumLen]

/-- C4 (corrected): whenever the trimming pass yields a non-empty list,
`select_montage_segments` returns it, its summed duration is at most
`total_target`, and it is either a fully-kept prefix of the accepted
segments or such a prefix plus one truncated segment whose length is
exactly the remaining budget `total_target` minus the sum of the prior
kept segments, truncation happening only when that remainder is at least
`1.0` (otherwise the overflowing segment is dropped).  The correction:
when trimming yields the empty list, the fallback segment
`(0, min(duration, max_segment_len))` is returned, and its length can
exceed `total_target`, so the budget bound does not hold for every call. -/
theorem C4_budget_respect (cuts : List ℚ) (scoreFn : ℚ → ℚ → Band → ℚ)
    (duration maxSeg totalTarget : ℚ) (jitter : ℕ → ℚ) (offs : ℕ → List ℚ)
    (htt : 0 ≤ totalTarget) :
    (trimSegments totalTarget
        (smsSegments cuts scoreFn duration maxSeg totalTarget jitter offs) 0 = [] ∧
      select_montage_segments cuts scoreFn duration maxSeg totalTarget jitter offs =
        [(0, min duration maxSeg)]) ∨
    (select_montage_segments cuts scoreFn duration maxSeg totalTarget jitter offs =
        trimSegments totalTarget
          (smsSegments cuts scoreFn duration maxSeg totalTarget jitter offs) 0 ∧
      sumLen (select_montage_segments cuts scoreFn duration maxSeg totalTarget jitter offs) ≤
        totalTarget ∧
      ((∃ n, select_montage_segments cuts scoreFn duration maxSeg totalTarget jitter offs =
          (smsSegments cuts scoreFn duration maxSeg totalTarget jitter offs).take n) ∨
        (∃ n s e rest,
          (smsSegments cuts scoreFn duration maxSeg totalTarget jitter offs).drop n =
            (s, e) :: rest ∧
          select_montage_segments cuts scoreFn duration maxSeg totalTarget jitter offs =
            (smsSegments cuts scoreFn duration maxSeg totalTarget jitter offs).take n ++
              [(s, s + (totalTarget -
                sumLen ((smsSegments cuts scoreFn duration maxSeg totalTarget jitter offs).take n)))] ∧
          1 ≤ totalTarget -
            sumLen ((smsSegments cuts scoreFn duration maxSeg totalTarget jitter offs).take n) ∧
          totalTarget <
            sumLen ((smsSegments cuts scoreFn duration maxSeg totalTarget jitter offs).take n) +
              (e - s)))) := by
  by_cases htr : trimSegments totalTarget
      (smsSegments cuts scoreFn duration maxSeg totalTarget jitter offs) 0 = []
  · left
    refine ⟨htr, ?_⟩
    simp only [select_montage_segments, if_pos htr]
  · right
    have hsel : select_montage_segments cuts scoreFn duration maxSeg totalTarget jitter offs =
        trimSegments totalTarget
          (smsSegments cuts scoreFn duration maxSeg totalTarget jitter offs) 0 := by
      simp only [select_montage_segments, if_neg htr]
    rcases trimSegments_shape totalTarget
        (smsSegments cuts scoreFn duration maxSeg totalTarget jitter offs) 0 with
      ⟨n, heq, hsum⟩ | ⟨n, s, e, rest, hdrop, heq, h1, h2⟩
    · refine ⟨hsel, ?_, Or.inl ⟨n, by rw [hsel, heq]⟩⟩
      rw [hsel, heq]
      rcases hsum with h0 | hsum
      · subst h0
        simpa [sumLen_nil] using htt
      · simpa using hsum
    · refine ⟨hsel, ?_, Or.inr ⟨n, s, e, rest, hdrop, ?_, by simpa using h1,
        by simpa using h2⟩⟩
      · rw [hsel, heq, sumLen_append, sumLen_cons, sumLen_nil]
        simp only
        linarith
      · rw [hsel, heq]
        norm_num

/-- C5 (confirmed): for every list returned by `select_montage_segments`
and every pair of adjacent segments `(s1, e1), (s2, e2)` in list order,
`s2 >= e1 - 0.1` holds, and consequently the segment start times are
monotonically non-decreasing across the list; this holds for every choice
of probe results and random draws. -/
theorem C5_non_overlap (cuts : List ℚ) (scoreFn : ℚ → ℚ → Band → ℚ)
    (duration maxSeg totalTarget : ℚ) (jitter : ℕ → ℚ) (offs : ℕ → List ℚ) :
    List.Chain' (fun a b : ℚ × ℚ => a.2 - 1/10 ≤ b.1)
      (select_montage_segments cuts scoreFn duration maxSeg totalTarget jitter offs) ∧
    List.Chain' (fun a b : ℚ × ℚ => a.1 ≤ b.1)
      (select_montage_segments cuts scoreFn duration maxSeg totalTarget jitter offs) := by
  have hinv := smsSegments_inv cuts scoreFn duration maxSeg totalTarget jitter offs
  have hchain : List.Chain' SegRel
      (select_montage_segments cuts scoreFn duration maxSeg totalTarget jitter offs) := by
    by_cases htr : trimSegments totalTarget
        (smsSegments cuts scoreFn duration maxSeg totalTarget jitter offs) 0 = []
    · simp only [select_montage_segments, if_pos htr]
      exact List.chain'_singleton _
    · simp only [select_montage_segments, if_neg htr]
      rcases trimSegments_shape totalTarget
          (smsSegments cuts scoreFn duration maxSeg totalTarget jitter offs) 0 with
        ⟨n, heq, _⟩ | ⟨n, s, e, rest, hdrop, heq, _, _⟩
      · rw [heq]
        exact chain_take hinv.2 n
      · rw [heq]
        exact chain_trunc hinv.2 hdrop
  exact ⟨List.Chain'.imp (fun a b hab => hab.1) hchain,
    List.Chain'.imp (fun a b hab => hab.2) hchain⟩

/-- C6 (confirmed): whenever `duration <= target`, `choose_best_window`
returns `start = 0`, `end = min(duration, target)` and the maximum of the
three band scores evaluated over the whole video; the result does not
depend on the detected cut set (the theorem holds for every `cuts`), so no
candidate search and no scene-cut detection takes place. -/
theorem C6_degenerate (cuts : List ℚ) (scoreFn : ℚ → ℚ → Band → ℚ)
    (duration target : ℚ) (h : duration ≤ target) :
    choose_best_window cuts scoreFn duration target =
      (0, min duration target,
        max (scoreFn 0 duration Band.top)
          (max (scoreFn 0 duration Band.mid) (scoreFn 0 duration Band.bottom))) := by
  simp only [choose_best_window, if_pos h]

/-- Witness for C6 at `duration = 30`, `target = 60`, zero band scores. -/
theorem C6_degenerate_witness :
    (30 : ℚ) ≤ 60 ∧
    choose_best_window [] (fun _ _ _ => 0) 30 60 = (0, 30, 0) := by
  refine ⟨by norm_num, ?_⟩
  rw [C6_degenerate [] (fun _ _ _ => 0) 30 60 (by norm_num)]
  norm_num

/-- C7 (confirmed): for every `duration > 0` and any probe behaviour
(including an empty cut list and all-zero band scores) and any random
draws, `select_montage_segments` at the default parameters returns a
non-empty list and `choose_best_window` at the default target returns a
window with `0 <= start < end`; both model functions are total, so no
exception can be raised. -/
theorem C7_never_empty (cuts : List ℚ) (scoreFn : ℚ → ℚ → Band → ℚ)
    (jitter : ℕ → ℚ) (offs : ℕ → List ℚ) (duration : ℚ) (hd : 0 < duration) :
    select_montage_segments cuts scoreFn duration 7 60 jitter offs ≠ [] ∧
    0 ≤ (choose_best_window cuts scoreFn duration 60).1 ∧
    (choose_best_window cuts scoreFn duration 60).1 <
      (choose_best_window cuts scoreFn duration 60).2.1 := by
  have hwf := choose_best_window_wf cuts scoreFn duration 60 hd (by norm_num)
  refine ⟨?_, hwf.1, hwf.2.1⟩
  by_cases htr : trimSegments 60 (smsSegments cuts scoreFn duration 7 60 jitter offs) 0 = []
  · simp only [select_montage_segments, if_pos htr]
    exact List.cons_ne_nil _ _
  · simp only [select_montage_segments, if_neg htr]
    exact htr

/-- Witness for C7 at `duration = 10` with empty cuts, zero scores, zero
jitter and the unshuffled offsets list. -/
theorem C7_never_empty_witness :
    (0 : ℚ) < 10 ∧
    (select_montage_segments [] (fun _ _ _ => 0) 10 7 60 (fun _ => 0)
        (fun _ => [-3/2, -4/5, 0, 4/5, 3/2]) ≠ [] ∧
      0 ≤ (choose_best_window [] (fun _ _ _ => 0) 10 60).1 ∧
      (choose_best_window [] (fun _ _ _ => 0) 10 60).1 <
        (choose_best_window [] (fun _ _ _ => 0) 10 60).2.1) :=
  ⟨by norm_num, C7_never_empty [] (fun _ _ _ => 0) (fun _ => 0)
    (fun _ => [-3/2, -4/5, 0, 4/5, 3/2]) 10 (by norm_num)⟩

/-- C9 (confirmed): given positive `duration`, `target`, `max_segment_len`
and `total_target`, the window returned by `choose_best_window` satisfies
`0 <= start < end <= duration` and `end - start <= target`, and every
segment returned by `select_montage_segments` (including a truncated last
segment and the fallback segment) satisfies `0 <= start < end <= duration`
and `end - start <= max_segment_len`. -/
theorem C9_window_bounds (cuts : List ℚ) (scoreFn : ℚ → ℚ → Band → ℚ)
    (duration target maxSeg totalTarget : ℚ) (jitter : ℕ → ℚ) (offs : ℕ → List ℚ)
    (hd : 0 < duration) (ht : 0 < target) (hm : 0 < maxSeg) (_htt : 0 < totalTarget) :
    (0 ≤ (choose_best_window cuts scoreFn duration target).1 ∧
      (choose_best_window cuts scoreFn duration target).1 <
        (choose_best_window cuts scoreFn duration target).2.1 ∧
      (choose_best_window cuts scoreFn duration target).2.1 ≤ duration ∧
      (choose_best_window cuts scoreFn duration target).2.1 -
        (choose_best_window cuts scoreFn duration target).1 ≤ target) ∧
    ∀ x ∈ select_montage_segments cuts scoreFn duration maxSeg totalTarget jitter offs,
      0 ≤ x.1 ∧ x.1 < x.2 ∧ x.2 ≤ duration ∧ x.2 - x.1 ≤ maxSeg :=
  ⟨choose_best_window_wf cuts scoreFn duration target hd ht,
   montage_wf cuts scoreFn duration maxSeg totalTarget jitter offs hd hm⟩

/-- Witness for C9 at `duration = 10`, `target = 60`, `max_segment_len = 7`,
`total_target = 60`. -/
theorem C9_window_bounds_witness :
    ((0 : ℚ) < 10 ∧ (0 : ℚ) < 60 ∧ (0 : ℚ) < 7) ∧
    ((0 ≤ (choose_best_window [] (fun _ _ _ => 0) 10 60).1 ∧
      (choose_best_window [] (fun _ _ _ => 0) 10 60).1 <
        (choose_best_window [] (fun _ _ _ => 0) 10 60).2.1 ∧
      (choose_best_window [] (fun _ _ _ => 0) 10 60).2.1 ≤ 10 ∧
      (choose_best_window [] (fun _ _ _ => 0) 10 60).2.1 -
        (choose_best_window [] (fun _ _ _ => 0) 10 60).1 ≤ 60) ∧
    ∀ x ∈ select_montage_segments [] (fun _ _ _ => 0) 10 7 60 (fun _ => 0)
        (fun _ => [-3/2, -4/5, 0, 4/5, 3/2]),
      0 ≤ x.1 ∧ x.1 < x.2 ∧ x.2 ≤ 10 ∧ x.2 - x.1 ≤ 7) :=
  ⟨⟨by norm_num, by norm_num, by norm_num⟩,
   C9_window_bounds [] (fun _ _ _ => 0) 10 60 7 60 (fun _ => 0)
    (fun _ => [-3/2, -4/5, 0, 4/5, 3/2]) (by norm_num) (by norm_num) (by norm_num)
    (by norm_num)⟩

lemma cbwLoop_eq_foldl (cuts : List ℚ) (scoreFn : ℚ → ℚ → Band → ℚ)
    (duration target step : ℚ) (hstep : 0 < step) :
    ∀ (r i : ℕ) (best : CbwBest),
      cbwLoop cuts scoreFn duration target step i r best =
        ((List.range' i r).filter
          (fun j : ℕ => decide ((j : ℚ) * step + target ≤ duration))).foldl
          (cbwBody cuts scoreFn target step) best := by
  intro r
  induction r with
  | zero => intro i best; rfl
  | succ r ih =>
    intro i best
    rw [cbwLoop, List.range'_succ]
    by_cases hbr : duration < (i : ℚ) * step + target
    · rw [if_pos hbr]
      have hfil : (i :: List.range' (i + 1) r).filter
          (fun j : ℕ => decide ((j : ℚ) * step + target ≤ duration)) = [] := by
        rw [List.filter_eq_nil_iff]
        intro a ha
        simp only [decide_eq_true_eq]
        rcases List.mem_cons.mp ha with rfl | ha
        · exact not_le.mpr hbr
        · rcases List.mem_range'.mp ha with ⟨m, _, rfl⟩
          have hia : (i : ℚ) ≤ ((i + 1 + 1 * m : ℕ) : ℚ) := by
            push_cast
            linarith
          have hmul : (i : ℚ) * step ≤ ((i + 1 + 1 * m : ℕ) : ℚ) * step :=
            mul_le_mul_of_nonneg_right hia (le_of_lt hstep)
          exact not_le.mpr (lt_of_lt_of_le hbr (by linarith))
      rw [hfil]
      rfl
    · rw [if_neg hbr]
      rw [List.filter_cons_of_pos (by simpa using not_lt.mp hbr), List.foldl_cons]
      exact ih (i + 1) (cbwBody cuts scoreFn target step best i)

/-- C8 (corrected): in the general case `duration > target` the candidate
loop of `choose_best_window` is the fold of its body over exactly those
indices `i < 8` with `i * step + target <= duration` (the break stops the
loop at the first other index, and by monotonicity of the candidate ends
that filters the same set).  All 8 candidates `i * step`, evenly spaced
across `[0, duration - target]` with `step = (duration - target)/7`, are
evaluated when `duration - target >= 7`; but when `duration - target < 7`
the step is clamped to `1.0` and only the indices with
`i <= duration - target` are evaluated, so fewer than 8 candidates are
generated and they do not span `[0, duration - target]` — the claimed
"exactly 8 candidates, all evaluated" is corrected accordingly. -/
theorem C8_candidate_grid (cuts : List ℚ) (scoreFn : ℚ → ℚ → Band → ℚ)
    (duration target : ℚ) (_h : target < duration) :
    (cbwLoop cuts scoreFn duration target (cbwStep duration target) 0 8 cbwInit =
      ((List.range 8).filter
        (fun j : ℕ => decide ((j : ℚ) * cbwStep duration target + target ≤ duration))).foldl
        (cbwBody cuts scoreFn target (cbwStep duration target)) cbwInit) ∧
    (7 ≤ duration - target →
      cbwStep duration target = (duration - target) / 7 ∧
      ∀ i : ℕ, i < 8 → (i : ℚ) * cbwStep duration target + target ≤ duration) ∧
    (duration - target < 7 →
      cbwStep duration target = 1 ∧
      ∀ i : ℕ, i < 8 → ((i : ℚ) * cbwStep duration target + target ≤ duration ↔
        (i : ℚ) ≤ duration - target)) := by
  have hstep : 0 < cbwStep duration target :=
    lt_of_lt_of_le zero_lt_one (le_max_left _ _)
  refine ⟨?_, ?_, ?_⟩
  · rw [cbwLoop_eq_foldl cuts scoreFn duration target (cbwStep duration target) hstep 8 0
      cbwInit, List.range_eq_range']
  · intro h7
    have hdiv : (1 : ℚ) ≤ (duration - target) / 7 := by
      rw [le_div_iff₀ (by norm_num : (0 : ℚ) < 7)]
      linarith
    have hs : cbwStep duration target = (duration - target) / 7 := max_eq_right hdiv
    refine ⟨hs, fun i hi => ?_⟩
    rw [hs]
    have hi7 : (i : ℚ) ≤ 7 := by
      have h77 : (i : ℚ) ≤ ((7 : ℕ) : ℚ) := Nat.cast_le.mpr (by omega)
      simpa using h77
    have hmul : (i : ℚ) * ((duration - target) / 7) ≤ 7 * ((duration - target) / 7) :=
      mul_le_mul_of_nonneg_right hi7 (by linarith)
    have hcanc : (7 : ℚ) * ((duration - target) / 7) = duration - target := by
      field_simp
    linarith
  · intro h7
    have hdiv : (duration - target) / 7 ≤ 1 := by
      rw [div_le_one (by norm_num : (0 : ℚ) < 7)]
      linarith
    have hs : cbwStep duration target = 1 := max_eq_left hdiv
    refine ⟨hs, fun i hi => ?_⟩
    rw [hs, mul_one]
    constructor <;> intro <;> linarith

/-- Witness for C8 at `duration = 130`, `target = 60` (so
`duration - target = 70 >= 7`), empty cuts and zero scores. -/
theorem C8_candidate_grid_witness :
    (60 : ℚ) < 130 ∧
    ((cbwLoop [] (fun _ _ _ => 0) 130 60 (cbwStep 130 60) 0 8 cbwInit =
      ((List.range 8).filter
        (fun j : ℕ => decide ((j : ℚ) * cbwStep 130 60 + 60 ≤ 130))).foldl
        (cbwBody [] (fun _ _ _ => 0) 60 (cbwStep 130 60)) cbwInit) ∧
    (7 ≤ (130 : ℚ) - 60 →
      cbwStep 130 60 = ((130 : ℚ) - 60) / 7 ∧
      ∀ i : ℕ, i < 8 → (i : ℚ) * cbwStep 130 60 + 60 ≤ 130) ∧
    ((130 : ℚ) - 60 < 7 →
      cbwStep 130 60 = 1 ∧
      ∀ i : ℕ, i < 8 → ((i : ℚ) * cbwStep 130 60 + 60 ≤ 130 ↔
        (i : ℚ) ≤ (130 : ℚ) - 60))) :=
  ⟨by norm_num, C8_candidate_grid [] (fun _ _ _ => 0) 130 60 (by norm_num)⟩

/-- C8 counterexample: at `duration = 62`, `target = 60` (general case,
`duration - target = 2 < 7`) with no scene cuts and band score
`100 - start`, candidate 7 would pass the (trivially satisfied)
cut-distance filter and has a strictly better objective than candidate 2,
yet `choose_best_window` returns the window of candidate 2, `(2, 62, 98)`: the
loop breaks at `i = 3` because `3 * step + target > duration`, so the
8 candidates are not all evaluated, refuting the claim as stated. -/
theorem C8_counterexample :
    choose_best_window [] (fun s _ _ => 100 - s) 62 60 = (2, 62, 98) ∧
    ¬ ((7 : ℚ) * cbwStep 62 60 + 60 ≤ 62) ∧
    cbwObjective [] (fun s _ _ => 100 - s) 60 (cbwStep 62 60) 2 <
      cbwObjective [] (fun s _ _ => 100 - s) 60 (cbwStep 62 60) 7 := by
  norm_num [choose_best_window, cbwStep, cbwLoop, cbwBody, cbwInit, cbwScore,
    cbwObjective, edge_distance, minAbsDist, abs_eq_max_neg, min_def, max_def]

/-- C1 counterexample: at `duration = 74`, `target = 60`, cuts at
`0, 2, 4, 6, 8, 10, 12, 15.2` and constant band score `50`, candidate 7
(start `14`) is the only survivor of the cut-distance filter and hence
attains the maximal objective among survivors, but its objective
`1.2 - 2.5 = -1.3` does not beat the `-1.0` sentinel, so
`choose_best_window` returns the midpoint fallback `(7, 67, 50)` and not
the window `(14, 74, 50)` of candidate 7, refuting the claim as stated. -/
theorem C1_counterexample :
    cbwSurvives [0, 2, 4, 6, 8, 10, 12, 76/5] 74 60 (cbwStep 74 60) 7 ∧
    (∀ j : ℕ, j < 8 →
      cbwSurvives [0, 2, 4, 6, 8, 10, 12, 76/5] 74 60 (cbwStep 74 60) j →
      cbwObjective [0, 2, 4, 6, 8, 10, 12, 76/5] (fun _ _ _ => 50) 60 (cbwStep 74 60) j ≤
        cbwObjective [0, 2, 4, 6, 8, 10, 12, 76/5] (fun _ _ _ => 50) 60 (cbwStep 74 60) 7) ∧
    choose_best_window [0, 2, 4, 6, 8, 10, 12, 76/5] (fun _ _ _ => 50) 74 60 = (7, 67, 50) ∧
    ¬ (choose_best_window [0, 2, 4, 6, 8, 10, 12, 76/5] (fun _ _ _ => 50) 74 60 =
      ((7 : ℕ) * cbwStep 74 60, ((7 : ℕ) : ℚ) * cbwStep 74 60 + 60,
        cbwScore (fun _ _ _ => 50) 60 (((7 : ℕ) : ℚ) * cbwStep 74 60))) := by
  refine ⟨?_, ?_, ?_, ?_⟩
  · norm_num [cbwSurvives, cbwStep, edge_distance, minAbsDist, abs_eq_max_neg,
      min_def, max_def]
  · intro j hj hS
    interval_cases j <;> revert hS <;>
      norm_num [cbwSurvives, cbwObjective, cbwScore, cbwStep, edge_distance,
        minAbsDist, abs_eq_max_neg, min_def, max_def]
  · norm_num [choose_best_window, cbwStep, cbwLoop, cbwBody, cbwInit, cbwScore,
      edge_distance, minAbsDist, abs_eq_max_neg, min_def, max_def]
  · norm_num [choose_best_window, cbwStep, cbwLoop, cbwBody, cbwInit, cbwScore,
      edge_distance, minAbsDist, abs_eq_max_neg, min_def, max_def]

/-- Witness for C1 (amended) at `duration = 130`, `target = 60`, empty
cuts and zero band scores: candidate 0 survives with objective `999`. -/
theorem C1_argmax_objective_witness :
    (60 : ℚ) < 130 ∧
    (∃ i, i < 8 ∧ cbwSurvives [] 130 60 (cbwStep 130 60) i ∧
      -1 < cbwObjective [] (fun _ _ _ => 0) 60 (cbwStep 130 60) i) ∧
    (∃ k, k < 8 ∧ cbwSurvives [] 130 60 (cbwStep 130 60) k ∧
      (∀ j, j < 8 → cbwSurvives [] 130 60 (cbwStep 130 60) j →
        cbwObjective [] (fun _ _ _ => 0) 60 (cbwStep 130 60) j ≤
          cbwObjective [] (fun _ _ _ => 0) 60 (cbwStep 130 60) k) ∧
      (∀ j, j < k → cbwSurvives [] 130 60 (cbwStep 130 60) j →
        cbwObjective [] (fun _ _ _ => 0) 60 (cbwStep 130 60) j <
          cbwObjective [] (fun _ _ _ => 0) 60 (cbwStep 130 60) k) ∧
      choose_best_window [] (fun _ _ _ => 0) 130 60 =
        ((k : ℚ) * cbwStep 130 60, (k : ℚ) * cbwStep 130 60 + 60,
         cbwScore (fun _ _ _ => 0) 60 ((k : ℚ) * cbwStep 130 60))) := by
  have hex : ∃ i, i < 8 ∧ cbwSurvives [] 130 60 (cbwStep 130 60) i ∧
      -1 < cbwObjective [] (fun _ _ _ => 0) 60 (cbwStep 130 60) i := by
    refine ⟨0, by norm_num, ?_, ?_⟩
    · norm_num [cbwSurvives, cbwStep, edge_distance]
    · norm_num [cbwObjective, cbwScore, cbwStep, edge_distance, min_def, max_def]
  exact ⟨by norm_num, hex, C1_argmax_objective [] (fun _ _ _ => 0) 130 60 (by norm_num) hex⟩

/-- C2 counterexample: at `duration = 74`, `target = 60`, cuts at
`0, 2, 4, 6, 8, 10, 12, 15.2` and constant band score `50`, candidate 7
survives the cut-distance filter, yet the loop ends with `best.start < 0`
and the midpoint fallback window is returned: the fallback is NOT
equivalent to "no candidate survives the filter", and the high text score
alone excluded the surviving candidate. -/
theorem C2_counterexample :
    cbwSurvives [0, 2, 4, 6, 8, 10, 12, 76/5] 74 60 (cbwStep 74 60) 7 ∧
    (cbwLoop [0, 2, 4, 6, 8, 10, 12, 76/5] (fun _ _ _ => 50) 74 60
      (cbwStep 74 60) 0 8 cbwInit).start < 0 ∧
    choose_best_window [0, 2, 4, 6, 8, 10, 12, 76/5] (fun _ _ _ => 50) 74 60 =
      (max 0 (((74 : ℚ) - 60) / 2), max 0 (((74 : ℚ) - 60) / 2) + 60,
        cbwScore (fun _ _ _ => 50) 60 (max 0 (((74 : ℚ) - 60) / 2))) := by
  refine ⟨?_, ?_, ?_⟩
  · norm_num [cbwSurvives, cbwStep, edge_distance, minAbsDist, abs_eq_max_neg,
      min_def, max_def]
  · norm_num [cbwStep, cbwLoop, cbwBody, cbwInit, cbwScore,
      edge_distance, minAbsDist, abs_eq_max_neg, min_def, max_def]
  · norm_num [choose_best_window, cbwStep, cbwLoop, cbwBody, cbwInit, cbwScore,
      edge_distance, minAbsDist, abs_eq_max_neg, min_def, max_def]

/-- Witness for C2 (amended) at `duration = 130`, `target = 60`. -/
theorem C2_fallback_iff_witness :
    (60 : ℚ) < 130 ∧
    (((cbwLoop [] (fun _ _ _ => 0) 130 60 (cbwStep 130 60) 0 8 cbwInit).start < 0 ↔
      ¬ ∃ i, i < 8 ∧ cbwSurvives [] 130 60 (cbwStep 130 60) i ∧
        -1 < cbwObjective [] (fun _ _ _ => 0) 60 (cbwStep 130 60) i) ∧
    ((cbwLoop [] (fun _ _ _ => 0) 130 60 (cbwStep 130 60) 0 8 cbwInit).start < 0 →
      choose_best_window [] (fun _ _ _ => 0) 130 60 =
        (max 0 (((130 : ℚ) - 60) / 2), max 0 (((130 : ℚ) - 60) / 2) + 60,
          cbwScore (fun _ _ _ => 0) 60 (max 0 (((130 : ℚ) - 60) / 2))))) :=
  ⟨by norm_num, C2_fallback_iff [] (fun _ _ _ => 0) 130 60 (by norm_num)⟩

/-- C3 counterexample: at `duration = 74`, `target = 60` with cuts at
every candidate start (`0, 2, ..., 14`) plus one at `6.8`, every candidate
is filtered out and the unfiltered midpoint fallback `(7, 67)` is
returned, whose start is only `0.2` seconds from the detected cut at
`6.8` — so a returned window CAN violate the 0.7-second clearance. -/
theorem C3_counterexample :
    ([0, 2, 4, 6, 34/5, 8, 10, 12, 14] : List ℚ) ≠ [] ∧
    (34/5 : ℚ) ∈ ([0, 2, 4, 6, 34/5, 8, 10, 12, 14] : List ℚ) ∧
    choose_best_window [0, 2, 4, 6, 34/5, 8, 10, 12, 14] (fun _ _ _ => 0) 74 60 =
      (7, 67, 0) ∧
    |(choose_best_window [0, 2, 4, 6, 34/5, 8, 10, 12, 14] (fun _ _ _ => 0) 74 60).1 -
      34/5| < 7/10 := by
  have heval : choose_best_window [0, 2, 4, 6, 34/5, 8, 10, 12, 14] (fun _ _ _ => 0) 74 60 =
      (7, 67, 0) := by
    norm_num [choose_best_window, cbwStep, cbwLoop, cbwBody, cbwInit, cbwScore,
      edge_distance, minAbsDist, abs_eq_max_neg, min_def, max_def]
  refine ⟨List.cons_ne_nil _ _, by norm_num, heval, ?_⟩
  rw [heval]
  norm_num [abs_eq_max_neg, max_def]

/-- Witness for C3 (amended) at `duration = 130`, `target = 60`, one cut
at `20`, zero band scores: candidate 0 survives with objective `20`. -/
theorem C3_boundary_clearance_witness :
    (60 : ℚ) < 130 ∧
    ∀ c ∈ ([20] : List ℚ),
      7/10 ≤ |(choose_best_window [20] (fun _ _ _ => 0) 130 60).1 - c| ∧
      7/10 ≤ |(choose_best_window [20] (fun _ _ _ => 0) 130 60).2.1 - c| := by
  have hex : ∃ i, i < 8 ∧ cbwSurvives [20] 130 60 (cbwStep 130 60) i ∧
      -1 < cbwObjective [20] (fun _ _ _ => 0) 60 (cbwStep 130 60) i := by
    refine ⟨0, by norm_num, ?_, ?_⟩
    · norm_num [cbwSurvives, cbwStep, edge_distance, minAbsDist, abs_eq_max_neg,
        min_def, max_def]
    · norm_num [cbwObjective, cbwScore, cbwStep, edge_distance, minAbsDist,
        abs_eq_max_neg, min_def, max_def]
  exact ⟨by norm_num,
    C3_boundary_clearance [20] (fun _ _ _ => 0) 130 60 (by norm_num) hex⟩

set_option maxHeartbeats 2000000 in
/-- C4 counterexample: at `duration = 10`, `max_segment_len = 7`,
`total_target = 3`, with cuts at every integer `0..10` (so every candidate
boundary is within `0.7` of a cut), zero scores, zero jitter and the
unshuffled offsets, the grid walk accepts nothing, trimming yields the
empty list, and the fallback `[(0, 7)]` is returned, whose summed duration
`7` exceeds `total_target = 3` — refuting "the summed duration of the
returned segment list is <= total_target for every call". -/
theorem C4_counterexample :
    select_montage_segments [0, 1, 2, 3, 4, 5, 6, 7, 8, 9, 10] (fun _ _ _ => 0) 10 7 3
      (fun _ => 0) (fun _ => [-3/2, -4/5, 0, 4/5, 3/2]) = [(0, 7)] ∧
    ¬ (sumLen [((0 : ℚ), (7 : ℚ))] ≤ 3) := by
  have hfuel : (⌈(10 : ℚ) / 7⌉).toNat = 2 := by
    have hc : ⌈(10 : ℚ) / 7⌉ = 2 := by
      rw [Int.ceil_eq_iff]
      constructor <;> norm_num
    rw [hc]
    rfl
  constructor
  · norm_num [select_montage_segments, smsSegments, hfuel, smsLoop, smsCandidates,
      pickMin, smsAccept, smsScore, is_near_cut, minAbsDist, trimSegments,
      List.filterMap_cons, abs_eq_max_neg, min_def, max_def]
  · norm_num [sumLen]

/-- Witness for C4 (amended) at `total_target = 60 >= 0`. -/
theorem C4_budget_respect_witness :
    (0 : ℚ) ≤ 60 ∧
    ((trimSegments 60
        (smsSegments [] (fun _ _ _ => 0) 10 7 60 (fun _ => 0)
          (fun _ => [-3/2, -4/5, 0, 4/5, 3/2])) 0 = [] ∧
      select_montage_segments [] (fun _ _ _ => 0) 10 7 60 (fun _ => 0)
          (fun _ => [-3/2, -4/5, 0, 4/5, 3/2]) =
        [(0, min 10 7)]) ∨
    (select_montage_segments [] (fun _ _ _ => 0) 10 7 60 (fun _ => 0)
          (fun _ => [-3/2, -4/5, 0, 4/5, 3/2]) =
        trimSegments 60
          (smsSegments [] (fun _ _ _ => 0) 10 7 60 (fun _ => 0)
            (fun _ => [-3/2, -4/5, 0, 4/5, 3/2])) 0 ∧
      sumLen (select_montage_segments [] (fun _ _ _ => 0) 10 7 60 (fun _ => 0)
          (fun _ => [-3/2, -4/5, 0, 4/5, 3/2])) ≤ 60 ∧
      ((∃ n, select_montage_segments [] (fun _ _ _ => 0) 10 7 60 (fun _ => 0)
            (fun _ => [-3/2, -4/5, 0, 4/5, 3/2]) =
          (smsSegments [] (fun _ _ _ => 0) 10 7 60 (fun _ => 0)
            (fun _ => [-3/2, -4/5, 0, 4/5, 3/2])).take n) ∨
        (∃ n s e rest,
          (smsSegments [] (fun _ _ _ => 0) 10 7 60 (fun _ => 0)
            (fun _ => [-3/2, -4/5, 0, 4/5, 3/2])).drop n = (s, e) :: rest ∧
          select_montage_segments [] (fun _ _ _ => 0) 10 7 60 (fun _ => 0)
              (fun _ => [-3/2, -4/5, 0, 4/5, 3/2]) =
            (smsSegments [] (fun _ _ _ => 0) 10 7 60 (fun _ => 0)
              (fun _ => [-3/2, -4/5, 0, 4/5, 3/2])).take n ++
              [(s, s + (60 - sumLen ((smsSegments [] (fun _ _ _ => 0) 10 7 60 (fun _ => 0)
                (fun _ => [-3/2, -4/5, 0, 4/5, 3/2])).take n)))] ∧
          1 ≤ 60 - sumLen ((smsSegments [] (fun _ _ _ => 0) 10 7 60 (fun _ => 0)
            (fun _ => [-3/2, -4/5, 0, 4/5, 3/2])).take n) ∧
          (60 : ℚ) < sumLen ((smsSegments [] (fun _ _ _ => 0) 10 7 60 (fun _ => 0)
            (fun _ => [-3/2, -4/5, 0, 4/5, 3/2])).take n) + (e - s))))) :=
  ⟨by norm_num, C4_budget_respect [] (fun _ _ _ => 0) 10 7 60 (fun _ => 0)
    (fun _ => [-3/2, -4/5, 0, 4/5, 3/2]) (by norm_num)⟩

/-- Witness for C10 at `duration = 130`, `target = 60` and band score
equal to the window start (all evaluated scores are below `20000`). -/
theorem C10_empty_cuts_min_score_witness :
    (60 : ℚ) < 130 ∧
    ((∀ t, edge_distance [] t = 999) ∧
    (∀ i, cbwSurvives [] 130 60 (cbwStep 130 60) i ↔
      (i : ℚ) * cbwStep 130 60 + 60 ≤ 130) ∧
    ∃ k : ℕ, k < 8 ∧ (k : ℚ) * cbwStep 130 60 + 60 ≤ 130 ∧
      (∀ j : ℕ, j < 8 → (j : ℚ) * cbwStep 130 60 + 60 ≤ 130 →
        cbwScore (fun s _ _ => s) 60 ((k : ℚ) * cbwStep 130 60) ≤
          cbwScore (fun s _ _ => s) 60 ((j : ℚ) * cbwStep 130 60)) ∧
      (∀ j : ℕ, j < k → (j : ℚ) * cbwStep 130 60 + 60 ≤ 130 →
        cbwScore (fun s _ _ => s) 60 ((k : ℚ) * cbwStep 130 60) <
          cbwScore (fun s _ _ => s) 60 ((j : ℚ) * cbwStep 130 60)) ∧
      choose_best_window [] (fun s _ _ => s) 130 60 =
        ((k : ℚ) * cbwStep 130 60, (k : ℚ) * cbwStep 130 60 + 60,
          cbwScore (fun s _ _ => s) 60 ((k : ℚ) * cbwStep 130 60))) := by
  refine ⟨by norm_num, C10_empty_cuts_min_score (fun s _ _ => s) 130 60 (by norm_num) ?_⟩
  intro i hi _
  interval_cases i <;> norm_num [cbwScore, cbwStep, max_def, min_def]
